import Mathlib

/-!
Verification of the CSV transformation utility (`transform_csv.py`).

The development shallowly embeds the transformation engine:
`CSVTransformer` state (the uuid-to-int map and the next-id counter),
the identifier mapper `uuid_to_sequential_int`, the redaction generators
`redact_name` / `redact_email` / `redact` (randomness modelled as an
explicit stream of naturals consumed by the primitives `random.choice`,
`random.randint` and `random.choices`), the date normalizer
`timestamp_to_date` (a faithful model of the three `strptime` patterns,
including the regex alternation order used by Python's `_strptime`, the
datetime constructor validity checks, and the whitespace-run handling of
a literal space in a format), the dispatcher `apply_transformation`, and
the orchestration `transform_csv` (file I/O abstracted to lists of rows,
with the `csv.DictWriter` field check and `restval` behaviour modelled).
-/

/-! ## Randomness model

Python's `random` module is modelled by an explicit stream of naturals:
each primitive consumes one stream element and reduces it modulo the size
of its range.  Every actual outcome of the Python generator corresponds to
some stream, and every stream corresponds to a possible outcome, so
properties proved for all streams cover all runs, and the existence of two
streams with different outcomes shows non-degenerate randomness.
-/

structure Rng where
  stream : Nat → Nat
  pos : Nat

def Rng.next (r : Rng) : Nat × Rng :=
  (r.stream r.pos, ⟨r.stream, r.pos + 1⟩)

/-- `random.choice(l)`: uniform pick of one element of a nonempty list. -/
def randChoice (l : List α) (d : α) (r : Rng) : α × Rng :=
  let (n, r') := r.next
  (l.getD (n % l.length) d, r')

/-- `random.randint(a, b)`: uniform integer in `[a, b]`, both ends included. -/
def randint (a b : Nat) (r : Rng) : Nat × Rng :=
  let (n, r') := r.next
  (a + n % (b - a + 1), r')

/-- `random.choices(l, k=k)`: `k` independent uniform picks with replacement. -/
def randChoices (l : List α) (d : α) : Nat → Rng → List α × Rng
  | 0, r => ([], r)
  | k + 1, r =>
    let (c, r') := randChoice l d r
    let (cs, r'') := randChoices l d k r'
    (c :: cs, r'')

/-- A concrete random state whose stream is constantly `n`. -/
def constRng (n : Nat) : Rng := ⟨fun _ => n, 0⟩

/-! ## Fixed pools (module-level constants of `transform_csv.py`) -/

def FIRST_NAMES : List String := [
  "James", "Mary", "John", "Patricia", "Robert", "Jennifer", "Michael",
  "Linda", "William", "Elizabeth", "David", "Barbara", "Richard", "Susan",
  "Joseph", "Jessica", "Thomas", "Sarah", "Charles", "Karen", "Christopher",
  "Nancy", "Daniel", "Lisa", "Matthew", "Betty", "Anthony", "Margaret",
  "Mark", "Sandra", "Donald", "Ashley", "Steven", "Kimberly", "Paul",
  "Emily", "Andrew", "Donna", "Joshua", "Michelle", "Kenneth", "Dorothy",
  "Kevin", "Carol", "Brian", "Amanda", "George", "Melissa", "Timothy",
  "Deborah", "Ronald", "Stephanie", "Edward", "Rebecca", "Jason", "Sharon",
  "Jeffrey", "Laura", "Ryan", "Cynthia", "Jacob", "Kathleen"]

def LAST_NAMES : List String := [
  "Smith", "Johnson", "Williams", "Brown", "Jones", "Garcia", "Miller",
  "Davis", "Rodriguez", "Martinez", "Hernandez", "Lopez", "Gonzalez",
  "Wilson", "Anderson", "Thomas", "Taylor", "Moore", "Jackson", "Martin",
  "Lee", "Perez", "Thompson", "White", "Harris", "Sanchez", "Clark",
  "Ramirez", "Lewis", "Robinson", "Walker", "Young", "Allen", "King",
  "Wright", "Scott", "Torres", "Nguyen", "Hill", "Flores", "Green",
  "Adams", "Nelson", "Baker", "Hall", "Rivera", "Campbell", "Mitchell",
  "Carter", "Roberts"]

def EMAIL_DOMAINS : List String := [
  "test.com", "example.com", "demo.net", "sample.org", "redacted.io"]

/-- `string.ascii_lowercase` as a list of characters. -/
def asciiLowercase : List Char :=
  "abcdefghijklmnopqrstuvwxyz".data

/-! ## CSVTransformer state and the identifier mapper -/

/-- The mutable state of a `CSVTransformer` instance: the insertion-ordered
uuid-to-int dictionary (a Python dict keeps insertion order, so it is an
association list with new keys appended at the end) and the next id. -/
structure CSVTransformer where
  uuid_to_int_map : List (String × Nat)
  next_id : Nat
deriving DecidableEq

/-- `CSVTransformer.__init__`: empty mapping, counter at 1. -/
def initTransformer : CSVTransformer := ⟨[], 1⟩

/-- Python dict lookup on the association-list model (first matching key). -/
def lookupMap : List (String × Nat) → String → Option Nat
  | [], _ => none
  | (k, v) :: rest, u => if k = u then some v else lookupMap rest u

/-- `CSVTransformer.uuid_to_sequential_int`: return the recorded integer if the
key is present, otherwise record `next_id` for it and bump the counter.
Returns the integer together with the updated state. -/
def uuid_to_sequential_int (t : CSVTransformer) (u : String) :
    Nat × CSVTransformer :=
  match lookupMap t.uuid_to_int_map u with
  | some n => (n, t)
  | none => (t.next_id, ⟨t.uuid_to_int_map ++ [(u, t.next_id)], t.next_id + 1⟩)

/-- Run a sequence of mapper calls from a given state, keeping only the state. -/
def runCalls (t : CSVTransformer) : List String → CSVTransformer
  | [] => t
  | u :: us => runCalls (uuid_to_sequential_int t u).2 us

/-- Append an identifier to the seen list unless already seen. -/
def addSeen (seen : List String) (u : String) : List String :=
  if u ∈ seen then seen else seen ++ [u]

/-- Extend a seen list by a call sequence, in first-seen order. -/
def extendSeen (seen : List String) : List String → List String
  | [] => seen
  | u :: us => extendSeen (addSeen seen u) us

/-- The distinct identifiers of a call sequence, in first-seen order. -/
def firstSeen (l : List String) : List String := extendSeen [] l

/-- The association list assigning `k, k+1, ...` to a list of keys in order. -/
def mapFor (k : Nat) : List String → List (String × Nat)
  | [] => []
  | u :: us => (u, k) :: mapFor (k + 1) us

/-- Index of the first occurrence of an element. -/
def idxOf : List String → String → Nat
  | [], _ => 0
  | v :: rest, u => if v = u then 0 else idxOf rest u + 1

theorem lookupMap_mapFor_mem (k : Nat) (seen : List String) (u : String)
    (h : u ∈ seen) : lookupMap (mapFor k seen) u = some (k + idxOf seen u) := by
  induction seen generalizing k with
  | nil => cases h
  | cons v rest ih =>
    simp only [mapFor, lookupMap, idxOf]
    by_cases hv : v = u
    · simp [hv]
    · have hu : u ∈ rest := by
        rcases List.mem_cons.mp h with h1 | h1
        · exact absurd h1.symm hv
        · exact h1
      simp only [if_neg hv, ih (k + 1) hu]
      congr 1
      omega

theorem lookupMap_mapFor_not_mem (k : Nat) (seen : List String) (u : String)
    (h : u ∉ seen) : lookupMap (mapFor k seen) u = none := by
  induction seen generalizing k with
  | nil => rfl
  | cons v rest ih =>
    simp only [mapFor, lookupMap]
    have hv : v ≠ u := fun hvu => h (hvu ▸ List.mem_cons_self v rest)
    rw [if_neg hv]
    exact ih (k + 1) (fun hu => h (List.mem_cons_of_mem v hu))

theorem mapFor_append (k : Nat) (seen : List String) (u : String) :
    mapFor k (seen ++ [u]) = mapFor k seen ++ [(u, k + seen.length)] := by
  induction seen generalizing k with
  | nil => simp [mapFor]
  | cons v rest ih =>
    have harith : k + 1 + rest.length = k + (rest.length + 1) := by omega
    simp only [List.cons_append, mapFor, List.length_cons]
    rw [show rest.append [u] = rest ++ [u] from rfl, ih (k + 1), harith]

/-- Main invariant: running the mapper from a state that encodes a seen list
produces the state encoding the extended seen list. -/
theorem runCalls_mapFor (l : List String) (seen : List String) :
    runCalls ⟨mapFor 1 seen, seen.length + 1⟩ l =
      ⟨mapFor 1 (extendSeen seen l), (extendSeen seen l).length + 1⟩ := by
  induction l generalizing seen with
  | nil => rfl
  | cons u us ih =>
    simp only [runCalls, extendSeen]
    by_cases h : u ∈ seen
    · have hseen : addSeen seen u = seen := by simp [addSeen, h]
      have hstep : (uuid_to_sequential_int ⟨mapFor 1 seen, seen.length + 1⟩ u).2 =
          ⟨mapFor 1 seen, seen.length + 1⟩ := by
        simp [uuid_to_sequential_int, lookupMap_mapFor_mem 1 seen u h]
      rw [hstep, hseen]
      exact ih seen
    · have hstep : (uuid_to_sequential_int ⟨mapFor 1 seen, seen.length + 1⟩ u).2 =
          ⟨mapFor 1 (seen ++ [u]), (seen ++ [u]).length + 1⟩ := by
        simp [uuid_to_sequential_int, lookupMap_mapFor_not_mem 1 seen u h,
              mapFor_append, Nat.add_comm]
      have hseen : addSeen seen u = seen ++ [u] := by simp [addSeen, h]
      rw [hstep, hseen]
      exact ih (seen ++ [u])

theorem runCalls_init (l : List String) :
    runCalls initTransformer l =
      ⟨mapFor 1 (firstSeen l), (firstSeen l).length + 1⟩ :=
  runCalls_mapFor l []

theorem idxOf_lt_length (seen : List String) (u : String) (h : u ∈ seen) :
    idxOf seen u < seen.length := by
  induction seen with
  | nil => cases h
  | cons v rest ih =>
    simp only [idxOf, List.length_cons]
    by_cases hv : v = u
    · simp [hv]
    · have hu : u ∈ rest := by
        rcases List.mem_cons.mp h with h1 | h1
        · exact absurd h1.symm hv
        · exact h1
      simp only [if_neg hv]
      exact Nat.succ_lt_succ (ih hu)

theorem get_idxOf (seen : List String) (u : String) (h : u ∈ seen)
    (hlt : idxOf seen u < seen.length) : seen.get ⟨idxOf seen u, hlt⟩ = u := by
  induction seen with
  | nil => cases h
  | cons v rest ih =>
    by_cases hv : v = u
    · simp [idxOf, hv]
    · have hu : u ∈ rest := by
        rcases List.mem_cons.mp h with h1 | h1
        · exact absurd h1.symm hv
        · exact h1
      have : idxOf (v :: rest) u = idxOf rest u + 1 := by simp [idxOf, hv]
      simp only [this] at hlt ⊢
      simpa using ih hu (Nat.lt_of_succ_lt_succ (by simpa using hlt))

theorem idxOf_inj (seen : List String) (u v : String) (hu : u ∈ seen)
    (hv : v ∈ seen) (h : idxOf seen u = idxOf seen v) : u = v := by
  have h1 := get_idxOf seen u hu (idxOf_lt_length seen u hu)
  have h2 := get_idxOf seen v hv (idxOf_lt_length seen v hv)
  rw [← h1, ← h2]
  congr 1
  exact Fin.ext h

theorem nodup_addSeen (seen : List String) (u : String) (h : seen.Nodup) :
    (addSeen seen u).Nodup := by
  unfold addSeen
  by_cases hu : u ∈ seen
  · simpa [hu]
  · simpa [hu] using List.Nodup.append h (List.nodup_singleton u)
      (by simpa using fun hmem => hu hmem)

theorem nodup_extendSeen (l : List String) (seen : List String)
    (h : seen.Nodup) : (extendSeen seen l).Nodup := by
  induction l generalizing seen with
  | nil => exact h
  | cons u us ih => exact ih (addSeen seen u) (nodup_addSeen seen u h)

theorem nodup_firstSeen (l : List String) : (firstSeen l).Nodup :=
  nodup_extendSeen l [] List.nodup_nil

theorem uuid_call_mem (l : List String) (u : String) (hu : u ∈ firstSeen l) :
    uuid_to_sequential_int (runCalls initTransformer l) u =
      (idxOf (firstSeen l) u + 1, runCalls initTransformer l) := by
  rw [runCalls_init l]
  simp [uuid_to_sequential_int, lookupMap_mapFor_mem 1 (firstSeen l) u hu,
        Nat.add_comm]

theorem idxOf_get_nodup (seen : List String) (h : seen.Nodup) (i : Nat)
    (hi : i < seen.length) : idxOf seen (seen.get ⟨i, hi⟩) = i := by
  induction seen generalizing i with
  | nil => cases hi
  | cons v rest ih =>
    cases i with
    | zero => simp [idxOf]
    | succ j =>
      have hv : v ≠ rest.get ⟨j, Nat.lt_of_succ_lt_succ hi⟩ := by
        intro hcontra
        exact (List.nodup_cons.mp h).1
          (hcontra ▸ List.get_mem rest j (Nat.lt_of_succ_lt_succ hi))
      simp only [List.get_cons_succ, idxOf, if_neg hv]
      exact congrArg (· + 1) (ih (List.nodup_cons.mp h).2 j _)

/-- C1: for every sequence of calls to `uuid_to_sequential_int` on a single
`CSVTransformer` instance, the identifier that was the `i`-th distinct one seen
(0-based index `i` in first-seen order) is assigned the integer `i + 1`
(contiguous, first-seen order), a repeated call with an already-seen identifier
returns its previously assigned integer without changing the state (no new
allocation), and no two distinct identifiers ever share an integer. -/
theorem uuid_mapper_first_seen_order (l : List String) (u v : String) (i : Nat)
    (hu : u ∈ firstSeen l) (hv : v ∈ firstSeen l)
    (hi : i < (firstSeen l).length) :
    (uuid_to_sequential_int (runCalls initTransformer l) u).1 =
        idxOf (firstSeen l) u + 1
    ∧ (uuid_to_sequential_int (runCalls initTransformer l) u).2 =
        runCalls initTransformer l
    ∧ ((uuid_to_sequential_int (runCalls initTransformer l) u).1 =
        (uuid_to_sequential_int (runCalls initTransformer l) v).1 → u = v)
    ∧ (uuid_to_sequential_int (runCalls initTransformer l)
        ((firstSeen l).get ⟨i, hi⟩)).1 = i + 1 := by
  refine ⟨?_, ?_, ?_, ?_⟩
  · rw [uuid_call_mem l u hu]
  · rw [uuid_call_mem l u hu]
  · intro heq
    rw [uuid_call_mem l u hu, uuid_call_mem l v hv] at heq
    exact idxOf_inj (firstSeen l) u v hu hv (by omega)
  · rw [uuid_call_mem l ((firstSeen l).get ⟨i, hi⟩) (List.get_mem _ i hi)]
    rw [idxOf_get_nodup (firstSeen l) (nodup_firstSeen l) i hi]

/-- Witness for C1 at the concrete call sequence `["a", "b", "a"]` with
`u = "b"`, `v = "a"`, `i = 1`. -/
theorem uuid_mapper_first_seen_order_witness :
    ("b" ∈ firstSeen ["a", "b", "a"])
    ∧ ((uuid_to_sequential_int (runCalls initTransformer ["a", "b", "a"]) "b").1 =
          idxOf (firstSeen ["a", "b", "a"]) "b" + 1
      ∧ (uuid_to_sequential_int (runCalls initTransformer ["a", "b", "a"]) "b").2 =
          runCalls initTransformer ["a", "b", "a"]
      ∧ ((uuid_to_sequential_int (runCalls initTransformer ["a", "b", "a"]) "b").1 =
          (uuid_to_sequential_int (runCalls initTransformer ["a", "b", "a"]) "a").1 →
            "b" = "a")
      ∧ (uuid_to_sequential_int (runCalls initTransformer ["a", "b", "a"])
          ((firstSeen ["a", "b", "a"]).get ⟨1, by decide⟩)).1 = 1 + 1) :=
  ⟨by decide, uuid_mapper_first_seen_order ["a", "b", "a"] "b" "a" 1
    (by decide) (by decide) (by decide)⟩

/-! ## Redaction generators -/

/-- `CSVTransformer.redact_name`: ignores the input, picks a random first and
last name from the fixed pools. -/
def redact_name (name : String) (r : Rng) : String × Rng :=
  let (first_name, r1) := randChoice FIRST_NAMES "" r
  let (last_name, r2) := randChoice LAST_NAMES "" r1
  (first_name ++ " " ++ last_name, r2)

/-- `CSVTransformer.redact_email`: ignores the input, builds
`<random length-5..10 lowercase token>@<random domain>`. -/
def redact_email (email : String) (r : Rng) : String × Rng :=
  let (local_length, r1) := randint 5 10 r
  let (local_part, r2) := randChoices asciiLowercase 'a' local_length r1
  let (domain, r3) := randChoice EMAIL_DOMAINS "" r2
  (String.mk local_part ++ "@" ++ domain, r3)

/-- `CSVTransformer.redact`: auto-detect by presence of the character `@`. -/
def redact (value : String) (r : Rng) : String × Rng :=
  if '@' ∈ value.data then redact_email value r else redact_name value r

theorem randChoice_mem (l : List α) (d : α) (r : Rng) (h : l ≠ []) :
    (randChoice l d r).1 ∈ l := by
  have hlen : 0 < l.length := List.length_pos.mpr h
  have hlt : r.stream r.pos % l.length < l.length := Nat.mod_lt _ hlen
  simp only [randChoice, Rng.next]
  rw [List.getD_eq_getElem l d hlt]
  exact List.getElem_mem hlt

theorem randChoices_length (l : List α) (d : α) (k : Nat) (r : Rng) :
    (randChoices l d k r).1.length = k := by
  induction k generalizing r with
  | zero => rfl
  | succ n ih => simp [randChoices, ih]

theorem randChoices_mem (l : List α) (d : α) (k : Nat) (r : Rng) (h : l ≠ [])
    (c : α) (hc : c ∈ (randChoices l d k r).1) : c ∈ l := by
  induction k generalizing r with
  | zero => cases hc
  | succ n ih =>
    simp only [randChoices] at hc
    rcases List.mem_cons.mp hc with h1 | h1
    · exact h1 ▸ randChoice_mem l d r h
    · exact ih _ h1

theorem email_domain_facts (domain : String) (hd : domain ∈ EMAIL_DOMAINS) :
    '@' ∉ domain.data ∧ '.' ∈ domain.data := by
  simp only [EMAIL_DOMAINS, List.mem_cons, List.not_mem_nil, or_false] at hd
  rcases hd with rfl | rfl | rfl | rfl | rfl <;> exact ⟨by decide, by decide⟩

/-- Core shape lemma for `redact_email`, shared by the email-shape and the
dispatch claims. -/
theorem redact_email_core (input : String) (r : Rng) :
    ∃ local_part domain,
      (redact_email input r).1.data = local_part ++ '@' :: domain.data
      ∧ 5 ≤ local_part.length ∧ local_part.length ≤ 10
      ∧ (∀ c ∈ local_part, c ∈ asciiLowercase)
      ∧ domain ∈ EMAIL_DOMAINS
      ∧ (redact_email input r).1.data.count '@' = 1
      ∧ '.' ∈ domain.data := by
  obtain ⟨lp, r2, hlp⟩ : ∃ lp r2,
      randChoices asciiLowercase 'a' (randint 5 10 r).1 (randint 5 10 r).2 =
        (lp, r2) := ⟨_, _, rfl⟩
  obtain ⟨dom, r3, hdom⟩ : ∃ dom r3, randChoice EMAIL_DOMAINS "" r2 =
      (dom, r3) := ⟨_, _, rfl⟩
  have hres : (redact_email input r).1 = String.mk lp ++ "@" ++ dom := by
    simp only [redact_email]
    rw [show (randint 5 10 r) = ((randint 5 10 r).1, (randint 5 10 r).2) from
      rfl, hlp, hdom]
  obtain ⟨dl⟩ := dom
  have hdata : (String.mk lp ++ "@" ++ String.mk dl).data = lp ++ '@' :: dl :=
    by simp
  have hmemdom : String.mk dl ∈ EMAIL_DOMAINS := by
    have := randChoice_mem EMAIL_DOMAINS "" r2 (by decide)
    rwa [hdom] at this
  have hlower : ∀ c ∈ lp, c ∈ asciiLowercase := by
    intro c hc
    exact randChoices_mem asciiLowercase 'a' _ _ (by decide) c (by rw [hlp]; exact hc)
  have hdomfacts := email_domain_facts (String.mk dl) hmemdom
  refine ⟨lp, String.mk dl, ?_, ?_, ?_, hlower, hmemdom, ?_, hdomfacts.2⟩
  · rw [hres, hdata]
  · have : lp.length = (randint 5 10 r).1 := by
      rw [show lp = (randChoices asciiLowercase 'a' (randint 5 10 r).1
        (randint 5 10 r).2).1 from by rw [hlp]]
      exact randChoices_length _ _ _ _
    simp only [this, randint, Rng.next]
    omega
  · have : lp.length = (randint 5 10 r).1 := by
      rw [show lp = (randChoices asciiLowercase 'a' (randint 5 10 r).1
        (randint 5 10 r).2).1 from by rw [hlp]]
      exact randChoices_length _ _ _ _
    simp only [this, randint, Rng.next]
    omega
  · rw [hres, hdata]
    have hat : '@' ∉ lp := by
      intro hc
      have := hlower '@' hc
      simp [asciiLowercase] at this
    rw [List.count_append, List.count_cons]
    simp [List.count_eq_zero.mpr hat,
          List.count_eq_zero.mpr hdomfacts.1]

/-- C5: for every input string and every random state, `redact_email` returns
`local@domain` where the local part is a lowercase alphabetic token of length
in `[5, 10]`, the domain comes from the fixed `EMAIL_DOMAINS` pool, the whole
result contains exactly one `@`, and the domain contains a `.`; the input's
content is ignored (the statement holds for arbitrary `input`). -/
theorem redact_email_shape (input : String) (r : Rng) :
    ∃ local_part domain,
      (redact_email input r).1.data = local_part ++ '@' :: domain.data
      ∧ 5 ≤ local_part.length ∧ local_part.length ≤ 10
      ∧ (∀ c ∈ local_part, c ∈ asciiLowercase)
      ∧ domain ∈ EMAIL_DOMAINS
      ∧ (redact_email input r).1.data.count '@' = 1
      ∧ '.' ∈ domain.data :=
  redact_email_core input r

/-- C6: `redact` dispatches on the presence of `@` in the value: with an `@`
it behaves as `redact_email` (so the result has exactly one `@` and a domain
from the pool containing `.`), otherwise as `redact_name`, producing a
two-token `First Last` string drawn from the fixed pools. -/
theorem redact_dispatch (v : String) (r : Rng) :
    ('@' ∈ v.data →
      redact v r = redact_email v r
      ∧ ∃ local_part domain,
          (redact v r).1.data = local_part ++ '@' :: domain.data
          ∧ domain ∈ EMAIL_DOMAINS
          ∧ (redact v r).1.data.count '@' = 1
          ∧ '.' ∈ domain.data)
    ∧ ('@' ∉ v.data →
      redact v r = redact_name v r
      ∧ ∃ f l, f ∈ FIRST_NAMES ∧ l ∈ LAST_NAMES
          ∧ (redact v r).1 = f ++ " " ++ l) := by
  constructor
  · intro h
    have heq : redact v r = redact_email v r := by simp [redact, h]
    refine ⟨heq, ?_⟩
    obtain ⟨lp, dom, h1, _, _, _, h5, h6, h7⟩ := redact_email_core v r
    exact ⟨lp, dom, heq ▸ h1, h5, heq ▸ h6, h7⟩
  · intro h
    have heq : redact v r = redact_name v r := by simp [redact, h]
    refine ⟨heq, ?_⟩
    refine ⟨(randChoice FIRST_NAMES "" r).1,
      (randChoice LAST_NAMES "" (randChoice FIRST_NAMES "" r).2).1,
      randChoice_mem _ _ _ (by decide), randChoice_mem _ _ _ (by decide), ?_⟩
    rw [heq]
    rfl

/-- Witness for C6: the dispatch at an email-shaped and a name-shaped input. -/
theorem redact_dispatch_witness :
    (redact "a@b" (constRng 0) = redact_email "a@b" (constRng 0)
      ∧ ∃ local_part domain,
          (redact "a@b" (constRng 0)).1.data = local_part ++ '@' :: domain.data
          ∧ domain ∈ EMAIL_DOMAINS
          ∧ (redact "a@b" (constRng 0)).1.data.count '@' = 1
          ∧ '.' ∈ domain.data)
    ∧ (redact "John" (constRng 0) = redact_name "John" (constRng 0)) :=
  ⟨(redact_dispatch "a@b" (constRng 0)).1 (by decide),
   ((redact_dispatch "John" (constRng 0)).2 (by decide)).1⟩

/-- C8: for every fixed input there are random states under which
`redact_name` produces different outputs, and likewise for `redact_email`:
the generators are non-degenerate. -/
theorem redact_generators_nondegenerate (input : String) :
    (∃ r1 r2 : Rng, (redact_name input r1).1 ≠ (redact_name input r2).1)
    ∧ (∃ r1 r2 : Rng, (redact_email input r1).1 ≠ (redact_email input r2).1) := by
  refine ⟨⟨constRng 0, constRng 1, ?_⟩, ⟨constRng 0, constRng 1, ?_⟩⟩
  · have h0 : (redact_name input (constRng 0)).1 = "James Smith" := rfl
    have h1 : (redact_name input (constRng 1)).1 = "Mary Johnson" := rfl
    rw [h0, h1]
    decide
  · have h0 : (redact_email input (constRng 0)).1 = "aaaaa@test.com" := rfl
    have h1 : (redact_email input (constRng 1)).1 = "bbbbbb@example.com" := rfl
    rw [h0, h1]
    decide

/-! ## Date normalizer

`CSVTransformer.timestamp_to_date` does
`timestamp_string.replace(" CET", "").strip()` and then tries
`datetime.strptime` with the three formats
`"%Y-%b-%d"`, `"%Y-%m-%d %H:%M:%S"`, `"%Y-%m-%d"` in order,
returning `date_obj.strftime("%Y-%m-%d")` for the first that succeeds and
the preprocessed string if none does.

The `strptime` model below follows CPython's `_strptime`: each directive is
the ordered regex alternation used there (`%Y` = exactly four digits,
`%m` = `1[0-2]|0[1-9]|[1-9]`, `%d` = `3[01]|[12]\d|0[1-9]|[1-9]`,
`%H` = `2[0-3]|[0-1]\d|\d`, `%M` = `[0-5]\d|\d`, `%S` = `6[0-1]|[0-5]\d|\d`,
`%b` = a case-insensitive three-letter month abbreviation), a literal
whitespace in the format matches a nonempty run of whitespace, the whole
string must be consumed, and the resulting `datetime` constructor call
validates the field ranges (day against the days of the month, seconds at
most 59).  For these three formats the ordered alternation never needs
regex backtracking across directives (no shorter alternative can make a
failing continuation succeed, since every continuation expects a
non-digit), so a deterministic first-match parser is exact. -/

/-- Python whitespace (`str.strip` and regex `\s`, ASCII range). -/
def isPySpace (c : Char) : Bool :=
  c = ' ' || c = '\t' || c = '\n' || c = '\r' ||
    c = Char.ofNat 11 || c = Char.ofNat 12

/-- `s.replace(" CET", "")`: remove every occurrence, scanning left to
right. -/
def removeCET : List Char → List Char
  | ' ' :: 'C' :: 'E' :: 'T' :: rest => removeCET rest
  | c :: rest => c :: removeCET rest
  | [] => []

/-- `s.strip()`: drop whitespace from both ends. -/
def pyStrip (l : List Char) : List Char :=
  ((l.dropWhile isPySpace).reverse.dropWhile isPySpace).reverse

/-- The preprocessing performed by `timestamp_to_date` before parsing. -/
def preprocessTS (s : String) : List Char := pyStrip (removeCET s.data)

def digVal (c : Char) : Nat := c.toNat - 48

/-- `%Y`: exactly four digits. -/
def parseY : List Char → Option (Nat × List Char)
  | a :: b :: c :: d :: rest =>
    if a.isDigit && b.isDigit && c.isDigit && d.isDigit then
      some (1000 * digVal a + 100 * digVal b + 10 * digVal c + digVal d, rest)
    else none
  | _ => none

/-- `%m`: ordered alternation `1[0-2]|0[1-9]|[1-9]`. -/
def parseMonthNum : List Char → Option (Nat × List Char)
  | a :: b :: rest =>
    if a = '1' ∧ '0' ≤ b ∧ b ≤ '2' then some (10 + digVal b, rest)
    else if a = '0' ∧ '1' ≤ b ∧ b ≤ '9' then some (digVal b, rest)
    else if '1' ≤ a ∧ a ≤ '9' then some (digVal a, b :: rest)
    else none
  | [a] => if '1' ≤ a ∧ a ≤ '9' then some (digVal a, []) else none
  | [] => none

/-- `%d`: ordered alternation `3[01]|[12]\d|0[1-9]|[1-9]`. -/
def parseDayNum : List Char → Option (Nat × List Char)
  | a :: b :: rest =>
    if a = '3' ∧ (b = '0' ∨ b = '1') then some (30 + digVal b, rest)
    else if ('1' ≤ a ∧ a ≤ '2') ∧ b.isDigit then
      some (10 * digVal a + digVal b, rest)
    else if a = '0' ∧ '1' ≤ b ∧ b ≤ '9' then some (digVal b, rest)
    else if '1' ≤ a ∧ a ≤ '9' then some (digVal a, b :: rest)
    else none
  | [a] => if '1' ≤ a ∧ a ≤ '9' then some (digVal a, []) else none
  | [] => none

/-- `%H`: ordered alternation `2[0-3]|[0-1]\d|\d`. -/
def parseHourNum : List Char → Option (Nat × List Char)
  | a :: b :: rest =>
    if a = '2' ∧ '0' ≤ b ∧ b ≤ '3' then some (20 + digVal b, rest)
    else if ('0' ≤ a ∧ a ≤ '1') ∧ b.isDigit then
      some (10 * digVal a + digVal b, rest)
    else if a.isDigit then some (digVal a, b :: rest)
    else none
  | [a] => if a.isDigit then some (digVal a, []) else none
  | [] => none

/-- `%M`: ordered alternation `[0-5]\d|\d`. -/
def parseMinNum : List Char → Option (Nat × List Char)
  | a :: b :: rest =>
    if ('0' ≤ a ∧ a ≤ '5') ∧ b.isDigit then
      some (10 * digVal a + digVal b, rest)
    else if a.isDigit then some (digVal a, b :: rest)
    else none
  | [a] => if a.isDigit then some (digVal a, []) else none
  | [] => none

/-- `%S`: ordered alternation `6[0-1]|[0-5]\d|\d` (leap seconds allowed by the
regex; the datetime constructor rejects them afterwards). -/
def parseSecNum : List Char → Option (Nat × List Char)
  | a :: b :: rest =>
    if a = '6' ∧ (b = '0' ∨ b = '1') then some (60 + digVal b, rest)
    else if ('0' ≤ a ∧ a ≤ '5') ∧ b.isDigit then
      some (10 * digVal a + digVal b, rest)
    else if a.isDigit then some (digVal a, b :: rest)
    else none
  | [a] => if a.isDigit then some (digVal a, []) else none
  | [] => none

/-- Case-insensitive three-letter month abbreviation (C locale). -/
def abbrevMonth (a b c : Char) : Option Nat :=
  let k := String.mk [a.toLower, b.toLower, c.toLower]
  if k = "jan" then some 1 else if k = "feb" then some 2
  else if k = "mar" then some 3 else if k = "apr" then some 4
  else if k = "may" then some 5 else if k = "jun" then some 6
  else if k = "jul" then some 7 else if k = "aug" then some 8
  else if k = "sep" then some 9 else if k = "oct" then some 10
  else if k = "nov" then some 11 else if k = "dec" then some 12
  else none

/-- `%b`. -/
def parseMonthAbbr : List Char → Option (Nat × List Char)
  | a :: b :: c :: rest =>
    match abbrevMonth a b c with
    | some m => some (m, rest)
    | none => none
  | _ => none

/-- A literal (non-letter) character of the format. -/
def parseLit (c : Char) : List Char → Option (List Char)
  | d :: rest => if d = c then some rest else none
  | [] => none

/-- A literal whitespace in the format: a nonempty whitespace run (`\s+`). -/
def parseWS : List Char → Option (List Char)
  | c :: rest => if isPySpace c then some (rest.dropWhile isPySpace) else none
  | [] => none

def isLeapYear (y : Nat) : Bool :=
  y % 4 = 0 && (y % 100 != 0 || y % 400 = 0)

def daysInMonth (y m : Nat) : Nat :=
  if m = 2 then (if isLeapYear y then 29 else 28)
  else if m = 4 ∨ m = 6 ∨ m = 9 ∨ m = 11 then 30
  else 31

/-- The `datetime` constructor's range validation. -/
def datetimeOk (y m d h mi s : Nat) : Bool :=
  decide (1 ≤ y ∧ y ≤ 9999 ∧ 1 ≤ m ∧ m ≤ 12 ∧ 1 ≤ d ∧ d ≤ daysInMonth y m
    ∧ h ≤ 23 ∧ mi ≤ 59 ∧ s ≤ 59)

/-- Regex match for `"%Y-%b-%d"` with the full-consumption check. -/
def parseFmt1 (l : List Char) : Option (Nat × Nat × Nat) := do
  let (y, l1) ← parseY l
  let l2 ← parseLit '-' l1
  let (m, l3) ← parseMonthAbbr l2
  let l4 ← parseLit '-' l3
  let (d, l5) ← parseDayNum l4
  if l5 = [] then some (y, m, d) else none

/-- Regex match for `"%Y-%m-%d %H:%M:%S"` with the full-consumption check. -/
def parseFmt2 (l : List Char) :
    Option (Nat × Nat × Nat × Nat × Nat × Nat) := do
  let (y, l1) ← parseY l
  let l2 ← parseLit '-' l1
  let (m, l3) ← parseMonthNum l2
  let l4 ← parseLit '-' l3
  let (d, l5) ← parseDayNum l4
  let l6 ← parseWS l5
  let (h, l7) ← parseHourNum l6
  let l8 ← parseLit ':' l7
  let (mi, l9) ← parseMinNum l8
  let l10 ← parseLit ':' l9
  let (s, l11) ← parseSecNum l10
  if l11 = [] then some (y, m, d, h, mi, s) else none

/-- Regex match for `"%Y-%m-%d"` with the full-consumption check. -/
def parseFmt3 (l : List Char) : Option (Nat × Nat × Nat) := do
  let (y, l1) ← parseY l
  let l2 ← parseLit '-' l1
  let (m, l3) ← parseMonthNum l2
  let l4 ← parseLit '-' l3
  let (d, l5) ← parseDayNum l4
  if l5 = [] then some (y, m, d) else none

/-- `datetime.strptime(s, "%Y-%b-%d")`, keeping the date fields. -/
def strptimeFmt1 (l : List Char) : Option (Nat × Nat × Nat) :=
  match parseFmt1 l with
  | some (y, m, d) => if datetimeOk y m d 0 0 0 then some (y, m, d) else none
  | none => none

/-- `datetime.strptime(s, "%Y-%m-%d %H:%M:%S")`, keeping the date fields. -/
def strptimeFmt2 (l : List Char) : Option (Nat × Nat × Nat) :=
  match parseFmt2 l with
  | some (y, m, d, h, mi, s) =>
    if datetimeOk y m d h mi s then some (y, m, d) else none
  | none => none

/-- `datetime.strptime(s, "%Y-%m-%d")`, keeping the date fields. -/
def strptimeFmt3 (l : List Char) : Option (Nat × Nat × Nat) :=
  match parseFmt3 l with
  | some (y, m, d) => if datetimeOk y m d 0 0 0 then some (y, m, d) else none
  | none => none

def pad2 (n : Nat) : String := if n < 10 then "0" ++ toString n else toString n

def pad4 (n : Nat) : String :=
  if n < 10 then "000" ++ toString n
  else if n < 100 then "00" ++ toString n
  else if n < 1000 then "0" ++ toString n
  else toString n

/-- `date_obj.strftime("%Y-%m-%d")`. -/
def formatDate (y m d : Nat) : String := pad4 y ++ "-" ++ pad2 m ++ "-" ++ pad2 d

/-- `CSVTransformer.timestamp_to_date`. -/
def timestamp_to_date (s : String) : String :=
  let t := preprocessTS s
  match strptimeFmt1 t with
  | some (y, m, d) => formatDate y m d
  | none =>
    match strptimeFmt2 t with
    | some (y, m, d) => formatDate y m d
    | none =>
      match strptimeFmt3 t with
      | some (y, m, d) => formatDate y m d
      | none => String.mk t

/-- Modelled from the spec's words for claim C3, for comparison with the
code's preprocessing only: strip one literal `" CET"` token only at the end
of the string if present, then trim surrounding whitespace. -/
def specTrailingStripPreprocess (s : String) : List Char :=
  let l := s.data
  let l1 := if (" CET".data).isSuffixOf l then l.take (l.length - 4) else l
  pyStrip l1

/-- Counterexample to C3 as stated: on `"foo CET bar"` no configured pattern
matches under either reading of the preprocessing, the claim's trailing-only
preprocessing leaves the string unchanged, but the code removes the interior
`" CET"` occurrence and returns `"foo bar"`. -/
theorem timestamp_preprocess_counterexample :
    strptimeFmt1 (specTrailingStripPreprocess "foo CET bar") = none
    ∧ strptimeFmt2 (specTrailingStripPreprocess "foo CET bar") = none
    ∧ strptimeFmt3 (specTrailingStripPreprocess "foo CET bar") = none
    ∧ strptimeFmt1 (preprocessTS "foo CET bar") = none
    ∧ strptimeFmt2 (preprocessTS "foo CET bar") = none
    ∧ strptimeFmt3 (preprocessTS "foo CET bar") = none
    ∧ String.mk (specTrailingStripPreprocess "foo CET bar") = "foo CET bar"
    ∧ timestamp_to_date "foo CET bar" = "foo bar"
    ∧ timestamp_to_date "foo CET bar" ≠
        String.mk (specTrailingStripPreprocess "foo CET bar") := by
  refine ⟨rfl, rfl, rfl, rfl, rfl, rfl, rfl, rfl, ?_⟩
  decide

/-- C3 amended: `timestamp_to_date` preprocesses by removing every occurrence
of the substring `" CET"` (anywhere in the string, not only at the end) and
then trimming surrounding whitespace; whenever no configured format pattern
matches the preprocessed string, it returns the preprocessed string unchanged
rather than failing. -/
theorem timestamp_fallback_preprocessed (s : String)
    (h1 : strptimeFmt1 (preprocessTS s) = none)
    (h2 : strptimeFmt2 (preprocessTS s) = none)
    (h3 : strptimeFmt3 (preprocessTS s) = none) :
    timestamp_to_date s = String.mk (pyStrip (removeCET s.data)) := by
  unfold timestamp_to_date
  rw [show preprocessTS s = pyStrip (removeCET s.data) from rfl] at h1 h2 h3
  simp only [preprocessTS, h1, h2, h3]

/-- Witness for the amended C3 at the unparseable input `"hello"`. -/
theorem timestamp_fallback_preprocessed_witness :
    timestamp_to_date "hello" = String.mk (pyStrip (removeCET "hello".data)) :=
  timestamp_fallback_preprocessed "hello" rfl rfl rfl

/-- C4: `timestamp_to_date` tries the three format patterns in order
(year-abbreviated-month-day, then year-month-day hour:minute:second, then
year-month-day) and returns the date portion in `YYYY-MM-DD` form for the
first pattern that fully matches the preprocessed string; in particular the
four documented examples hold. -/
theorem timestamp_patterns_in_order (s : String) (y m d : Nat) :
    timestamp_to_date "2025-Mar-01" = "2025-03-01"
    ∧ timestamp_to_date "2025-03-23 16:54:43 CET" = "2025-03-23"
    ∧ timestamp_to_date "2025-03-23" = "2025-03-23"
    ∧ timestamp_to_date "2021-Feb-17" = "2021-02-17"
    ∧ (strptimeFmt1 (preprocessTS s) = some (y, m, d) →
        timestamp_to_date s = formatDate y m d)
    ∧ (strptimeFmt1 (preprocessTS s) = none →
        strptimeFmt2 (preprocessTS s) = some (y, m, d) →
        timestamp_to_date s = formatDate y m d)
    ∧ (strptimeFmt1 (preprocessTS s) = none →
        strptimeFmt2 (preprocessTS s) = none →
        strptimeFmt3 (preprocessTS s) = some (y, m, d) →
        timestamp_to_date s = formatDate y m d) := by
  refine ⟨rfl, rfl, rfl, rfl, ?_, ?_, ?_⟩
  · intro h1
    unfold timestamp_to_date
    simp only [h1]
  · intro h1 h2
    unfold timestamp_to_date
    simp only [h1, h2]
  · intro h1 h2 h3
    unfold timestamp_to_date
    simp only [h1, h2, h3]

/-- Witness for C4 at `"2025-Mar-01"`, matched by the first pattern. -/
theorem timestamp_patterns_in_order_witness :
    timestamp_to_date "2025-Mar-01" = formatDate 2025 3 1 :=
  (timestamp_patterns_in_order "2025-Mar-01" 2025 3 1).2.2.2.2.1 rfl

/-! ## Transformation registry and dispatcher -/

/-- A transformed cell value: `uuid_to_int` yields an integer, everything else
a string (Python is dynamically typed; the writer serializes integers as
decimal text). -/
inductive TValue where
  | vstr (s : String)
  | vint (n : Nat)
deriving DecidableEq

/-- The keys of the registry returned by `get_transformations`, in insertion
order. -/
def transformationKeys : List String :=
  ["uuid_to_int", "redact", "timestamp_to_date"]

/-- The single-quote character used in the `ValueError` message. -/
def errQuote : String := String.singleton (Char.ofNat 39)

/-- The message of
`ValueError(f"Unknown transformation type: <tt>. Available: [...]")`,
with the offending type single-quoted and the available keys rendered the way
Python prints a list of strings. -/
def unknownTypeMsg (tt : String) : String :=
  "Unknown transformation type: " ++ errQuote ++ tt ++ errQuote ++
    ". Available: [" ++ errQuote ++ "uuid_to_int" ++ errQuote ++ ", " ++
    errQuote ++ "redact" ++ errQuote ++ ", " ++
    errQuote ++ "timestamp_to_date" ++ errQuote ++ "]"

/-- `CSVTransformer.apply_transformation`: pass through on `None`, dispatch on
a recognized kind, raise `ValueError` on an unknown kind.  The transformer
state and random state are returned alongside so that the state at the moment
an exception is raised is visible. -/
def apply_transformation (t : CSVTransformer) (rng : Rng) (value : String)
    (transformation_type : Option String) :
    Except String TValue × CSVTransformer × Rng :=
  match transformation_type with
  | none => (.ok (.vstr value), t, rng)
  | some tt =>
    if tt = "uuid_to_int" then
      let (n, t') := uuid_to_sequential_int t value
      (.ok (.vint n), t', rng)
    else if tt = "redact" then
      let (s, rng') := redact value rng
      (.ok (.vstr s), t, rng')
    else if tt = "timestamp_to_date" then
      (.ok (.vstr (timestamp_to_date value)), t, rng)
    else
      (.error (unknownTypeMsg tt), t, rng)

theorem string_append_assoc (a b c : String) : a ++ b ++ c = a ++ (b ++ c) := by
  cases a; cases b; cases c
  exact congrArg String.mk (List.append_assoc _ _ _)

/-- C2: the dispatcher passes values through when no kind is configured,
invokes the matching operation for each of the three recognized kinds, and
fails on any other kind with an error message that contains the unrecognized
kind and each of the recognized kinds. -/
theorem apply_transformation_dispatch (t : CSVTransformer) (rng : Rng)
    (v : String) (tt : String) (h : tt ∉ transformationKeys) :
    apply_transformation t rng v none = (.ok (.vstr v), t, rng)
    ∧ apply_transformation t rng v (some "uuid_to_int") =
        (.ok (.vint (uuid_to_sequential_int t v).1),
          (uuid_to_sequential_int t v).2, rng)
    ∧ apply_transformation t rng v (some "redact") =
        (.ok (.vstr (redact v rng).1), t, (redact v rng).2)
    ∧ apply_transformation t rng v (some "timestamp_to_date") =
        (.ok (.vstr (timestamp_to_date v)), t, rng)
    ∧ (apply_transformation t rng v (some tt)).1 = .error (unknownTypeMsg tt)
    ∧ (∃ a b : String, unknownTypeMsg tt = a ++ tt ++ b)
    ∧ (∃ a b : String, unknownTypeMsg tt = a ++ "uuid_to_int" ++ b)
    ∧ (∃ a b : String, unknownTypeMsg tt = a ++ "redact" ++ b)
    ∧ (∃ a b : String, unknownTypeMsg tt = a ++ "timestamp_to_date" ++ b) := by
  simp only [transformationKeys, List.mem_cons, List.not_mem_nil, or_false,
    not_or] at h
  obtain ⟨h1, h2, h3⟩ := h
  refine ⟨rfl, rfl, rfl, rfl, ?_, ?_, ?_, ?_, ?_⟩
  · simp only [apply_transformation, if_neg h1, if_neg h2, if_neg h3]
  · exact ⟨"Unknown transformation type: " ++ errQuote,
      errQuote ++ ". Available: [" ++ errQuote ++ "uuid_to_int" ++ errQuote
        ++ ", " ++ errQuote ++ "redact" ++ errQuote ++ ", " ++ errQuote
        ++ "timestamp_to_date" ++ errQuote ++ "]",
      by simp only [unknownTypeMsg, string_append_assoc]⟩
  · exact ⟨"Unknown transformation type: " ++ errQuote ++ tt ++ errQuote
        ++ ". Available: [" ++ errQuote,
      errQuote ++ ", " ++ errQuote ++ "redact" ++ errQuote ++ ", "
        ++ errQuote ++ "timestamp_to_date" ++ errQuote ++ "]",
      by simp only [unknownTypeMsg, string_append_assoc]⟩
  · exact ⟨"Unknown transformation type: " ++ errQuote ++ tt ++ errQuote
        ++ ". Available: [" ++ errQuote ++ "uuid_to_int" ++ errQuote ++ ", "
        ++ errQuote,
      errQuote ++ ", " ++ errQuote ++ "timestamp_to_date" ++ errQuote ++ "]",
      by simp only [unknownTypeMsg, string_append_assoc]⟩
  · exact ⟨"Unknown transformation type: " ++ errQuote ++ tt ++ errQuote
        ++ ". Available: [" ++ errQuote ++ "uuid_to_int" ++ errQuote ++ ", "
        ++ errQuote ++ "redact" ++ errQuote ++ ", " ++ errQuote,
      errQuote ++ "]",
      by simp only [unknownTypeMsg, string_append_assoc]⟩

/-- Witness for C2 at the unrecognized kind `"bogus_kind"`. -/
theorem apply_transformation_dispatch_witness :
    apply_transformation initTransformer (constRng 0) "value" none =
      (.ok (.vstr "value"), initTransformer, constRng 0)
    ∧ (apply_transformation initTransformer (constRng 0) "value"
        (some "bogus_kind")).1 = .error (unknownTypeMsg "bogus_kind") :=
  ⟨(apply_transformation_dispatch initTransformer (constRng 0) "value"
      "bogus_kind" (by decide)).1,
   (apply_transformation_dispatch initTransformer (constRng 0) "value"
      "bogus_kind" (by decide)).2.2.2.2.1⟩

/-- C9: on an unrecognized kind, `apply_transformation` raises before invoking
any operation: the result is the error together with the transformer state
(uuid map and counter) and random state exactly as they were before the
call. -/
theorem apply_transformation_error_atomic (t : CSVTransformer) (rng : Rng)
    (v : String) (tt : String) (h : tt ∉ transformationKeys) :
    apply_transformation t rng v (some tt) =
      (.error (unknownTypeMsg tt), t, rng) := by
  simp only [transformationKeys, List.mem_cons, List.not_mem_nil, or_false,
    not_or] at h
  simp only [apply_transformation, if_neg h.1, if_neg h.2.1, if_neg h.2.2]

/-- Witness for C9 at the unrecognized kind `"bogus_kind"`. -/
theorem apply_transformation_error_atomic_witness :
    apply_transformation initTransformer (constRng 0) "x" (some "bogus_kind") =
      (.error (unknownTypeMsg "bogus_kind"), initTransformer, constRng 0) :=
  apply_transformation_error_atomic initTransformer (constRng 0) "x"
    "bogus_kind" (by decide)

/-! ## The table transformation engine

`CSVTransformer.transform_csv` with file I/O abstracted away: the input file
is the header (`input_columns`, from `reader.fieldnames`) plus a list of rows
(each a `csv.DictReader` dict, modelled as a function from column name to
string), and the output file is a header plus the serialized rows.  The
`csv.DictWriter` behaviour is modelled: a row holding a key that is not among
the fieldnames raises `ValueError`, a missing key is written as the default
`restval`, i.e. the empty field, and integer values are written in decimal.
An exception aborts the whole run (`Except.error`). -/

structure CSVOutput where
  header : List String
  outRows : List (List String)
deriving DecidableEq

/-- The inner loop `for column in input_columns: ...` building
`transformed_row` (a dict in iteration order) for one row. -/
def transform_row (t : CSVTransformer) (rng : Rng)
    (input_columns : List String) (transformations : String → Option String)
    (row : String → String) :
    Except String (List (String × TValue)) × CSVTransformer × Rng :=
  match input_columns with
  | [] => (.ok [], t, rng)
  | c :: rest =>
    match apply_transformation t rng (row c) (transformations c) with
    | (.error e, t', rng') => (.error e, t', rng')
    | (.ok v, t', rng') =>
      match transform_row t' rng' rest transformations row with
      | (.error e, t'', rng'') => (.error e, t'', rng'')
      | (.ok tr, t'', rng'') => (.ok ((c, v) :: tr), t'', rng'')

/-- The outer loop `for row in reader: ... transformed_rows.append(...)`. -/
def transform_rows (t : CSVTransformer) (rng : Rng)
    (input_columns : List String) (transformations : String → Option String) :
    List (String → String) →
      Except String (List (List (String × TValue))) × CSVTransformer × Rng
  | [] => (.ok [], t, rng)
  | row :: rest =>
    match transform_row t rng input_columns transformations row with
    | (.error e, t', rng') => (.error e, t', rng')
    | (.ok tr, t', rng') =>
      match transform_rows t' rng' input_columns transformations rest with
      | (.error e, t'', rng'') => (.error e, t'', rng'')
      | (.ok trs, t'', rng'') => (.ok (tr :: trs), t'', rng'')

/-- Dict lookup in a transformed row. -/
def lookupRow : List (String × TValue) → String → Option TValue
  | [], _ => none
  | (k, v) :: rest, c => if k = c then some v else lookupRow rest c

/-- How `csv` writes a cell: integers in decimal, strings as they are. -/
def serializeValue : TValue → String
  | .vstr s => s
  | .vint n => toString n

/-- `DictWriter._dict_to_list`: project a row dict onto the fieldnames,
writing the `restval` (empty field) for a missing key. -/
def projectRow (fieldnames : List String) (tr : List (String × TValue)) :
    List String :=
  fieldnames.map (fun c =>
    match lookupRow tr c with
    | some v => serializeValue v
    | none => "")

/-- `DictWriter`'s `extrasaction="raise"` check: does the row dict hold a key
that is not among the fieldnames? -/
def rowHasExtra (tr : List (String × TValue)) (fieldnames : List String) :
    Bool :=
  tr.any (fun p => !(fieldnames.contains p.1))

/-- `writer.writerows(transformed_rows)`. -/
def writeRowsAux (fieldnames : List String) :
    List (List (String × TValue)) → Except String (List (List String))
  | [] => .ok []
  | tr :: trs =>
    if rowHasExtra tr fieldnames then
      .error "dict contains fields not in fieldnames"
    else
      match writeRowsAux fieldnames trs with
      | .error e => .error e
      | .ok rest => .ok (projectRow fieldnames tr :: rest)

/-- `output_columns = column_order if column_order else input_columns`:
Python truthiness makes both `None` and the empty list fall back. -/
def resolveColumns (column_order : Option (List String))
    (input_columns : List String) : List String :=
  match column_order with
  | some l => if l.isEmpty then input_columns else l
  | none => input_columns

/-- `CSVTransformer.transform_csv`. -/
def transform_csv (t : CSVTransformer) (rng : Rng)
    (input_columns : List String) (rows : List (String → String))
    (transformations : String → Option String)
    (column_order : Option (List String)) :
    Except String CSVOutput × CSVTransformer × Rng :=
  match transform_rows t rng input_columns transformations rows with
  | (.error e, t', rng') => (.error e, t', rng')
  | (.ok transformed_rows, t', rng') =>
    let output_columns := resolveColumns column_order input_columns
    match writeRowsAux output_columns transformed_rows with
    | .error e => (.error e, t', rng')
    | .ok outRows => (.ok ⟨output_columns, outRows⟩, t', rng')

theorem transform_row_keys (cols : List String)
    (cfg : String → Option String) (row : String → String) :
    ∀ (t : CSVTransformer) (rng : Rng) (tr : List (String × TValue))
      (s : CSVTransformer × Rng),
      transform_row t rng cols cfg row = (.ok tr, s) →
        tr.map Prod.fst = cols := by
  induction cols with
  | nil =>
    intro t rng tr s h
    simp only [transform_row] at h
    obtain ⟨h1, -⟩ := Prod.mk.injEq .. ▸ h
    cases h
    rfl
  | cons c rest ih =>
    intro t rng tr s h
    simp only [transform_row] at h
    split at h
    · cases h
    · split at h
      · cases h
      · rename_i x1 v t1 r1 heq1 x2 tr2 t2 r2 heq2
        cases h
        simp only [List.map_cons, List.cons.injEq, true_and]
        exact ih t1 r1 tr2 (t2, r2) heq2

theorem transform_rows_length (cols : List String)
    (cfg : String → Option String) :
    ∀ (rows : List (String → String)) (t : CSVTransformer) (rng : Rng)
      (trs : List (List (String × TValue))) (s : CSVTransformer × Rng),
      transform_rows t rng cols cfg rows = (.ok trs, s) →
        trs.length = rows.length := by
  intro rows
  induction rows with
  | nil =>
    intro t rng trs s h
    cases h
    rfl
  | cons row rest ih =>
    intro t rng trs s h
    simp only [transform_rows] at h
    split at h
    · cases h
    · split at h
      · cases h
      · rename_i x1 tr t1 r1 heq1 x2 trs2 t2 r2 heq2
        cases h
        simp only [List.length_cons]
        rw [ih t1 r1 trs2 (t2, r2) heq2]

theorem transform_rows_keys (cols : List String)
    (cfg : String → Option String) :
    ∀ (rows : List (String → String)) (t : CSVTransformer) (rng : Rng)
      (trs : List (List (String × TValue))) (s : CSVTransformer × Rng),
      transform_rows t rng cols cfg rows = (.ok trs, s) →
        ∀ tr ∈ trs, tr.map Prod.fst = cols := by
  intro rows
  induction rows with
  | nil =>
    intro t rng trs s h
    cases h
    intro tr htr
    cases htr
  | cons row rest ih =>
    intro t rng trs s h
    simp only [transform_rows] at h
    split at h
    · cases h
    · split at h
      · cases h
      · rename_i x1 tr t1 r1 heq1 x2 trs2 t2 r2 heq2
        cases h
        intro trm htrm
        rcases List.mem_cons.mp htrm with hm | hm
        · exact hm ▸ transform_row_keys cols cfg row t rng tr (t1, r1) heq1
        · exact ih t1 r1 trs2 (t2, r2) heq2 trm hm

theorem writeRowsAux_ok (fieldnames : List String) :
    ∀ (trs : List (List (String × TValue))) (os : List (List String)),
      writeRowsAux fieldnames trs = .ok os →
        os = trs.map (projectRow fieldnames) := by
  intro trs
  induction trs with
  | nil =>
    intro os h
    cases h
    rfl
  | cons tr rest ih =>
    intro os h
    simp only [writeRowsAux] at h
    split at h
    · cases h
    · split at h
      · cases h
      · rename_i rest' heq
        cases h
        simp only [List.map_cons]
        rw [ih rest' heq]

theorem transform_csv_state (t : CSVTransformer) (rng : Rng)
    (cols : List String) (rows : List (String → String))
    (cfg : String → Option String) (co : Option (List String)) :
    (transform_csv t rng cols rows cfg co).2 =
      (transform_rows t rng cols cfg rows).2 := by
  unfold transform_csv
  rcases hrun : transform_rows t rng cols cfg rows with ⟨res, t', rng'⟩
  cases res with
  | error e => rfl
  | ok trs =>
    simp only []
    split
    · rfl
    · rfl

theorem transform_csv_ok (t : CSVTransformer) (rng : Rng)
    (cols : List String) (rows : List (String → String))
    (cfg : String → Option String) (co : Option (List String))
    (out : CSVOutput) (h : (transform_csv t rng cols rows cfg co).1 = .ok out) :
    ∃ trs s, transform_rows t rng cols cfg rows = (.ok trs, s)
      ∧ out = ⟨resolveColumns co cols,
          trs.map (projectRow (resolveColumns co cols))⟩ := by
  unfold transform_csv at h
  rcases hrun : transform_rows t rng cols cfg rows with ⟨res, t', rng'⟩
  rw [hrun] at h
  cases res with
  | error e => cases h
  | ok trs =>
    simp only [] at h
    split at h
    · cases h
    · rename_i os heq
      cases h
      exact ⟨trs, (t', rng'), rfl, by rw [writeRowsAux_ok _ trs os heq]⟩

/-- C7: on a successful run, `transform_csv` emits rows in input order (one
output row per input row, produced by the row loop `transform_rows` which
walks the input rows in order), each transformed row is keyed by the input
columns in input-column order with the configured kind applied per column,
the output header is `column_order` if supplied (and nonempty) else the input
columns, and column reordering is purely a projection at output time: runs
differing only in `column_order` produce the same transformed rows and
transformer/random state, with each output row the projection of the same
transformed row onto the resolved order. -/
theorem transform_csv_order_and_projection (t : CSVTransformer) (rng : Rng)
    (cols : List String) (rows : List (String → String))
    (cfg : String → Option String) (co : Option (List String))
    (out : CSVOutput)
    (h : (transform_csv t rng cols rows cfg co).1 = .ok out) :
    out.header = resolveColumns co cols
    ∧ (transform_csv t rng cols rows cfg co).2 =
        (transform_rows t rng cols cfg rows).2
    ∧ ∃ trs, (transform_rows t rng cols cfg rows).1 = .ok trs
        ∧ trs.length = rows.length
        ∧ (∀ tr ∈ trs, tr.map Prod.fst = cols)
        ∧ out.outRows = trs.map (projectRow (resolveColumns co cols))
        ∧ (∀ (co2 : Option (List String)) (out2 : CSVOutput),
            (transform_csv t rng cols rows cfg co2).1 = .ok out2 →
              out2.outRows = trs.map (projectRow (resolveColumns co2 cols))) := by
  obtain ⟨trs, s, hrun, hout⟩ := transform_csv_ok t rng cols rows cfg co out h
  refine ⟨by rw [hout], transform_csv_state t rng cols rows cfg co, trs,
    by rw [hrun],
    transform_rows_length cols cfg rows t rng trs s hrun,
    transform_rows_keys cols cfg rows t rng trs s hrun,
    by rw [hout], ?_⟩
  intro co2 out2 h2
  obtain ⟨trs2, s2, hrun2, hout2⟩ :=
    transform_csv_ok t rng cols rows cfg co2 out2 h2
  have heq := hrun.symm.trans hrun2
  simp only [Prod.mk.injEq, Except.ok.injEq] at heq
  rw [hout2, heq.1]

/-- Witness for C7 at a one-column, one-row, no-transformation run. -/
theorem transform_csv_order_and_projection_witness :
    (CSVOutput.mk ["a"] [["x"]]).header = resolveColumns none ["a"] :=
  (transform_csv_order_and_projection initTransformer (constRng 0) ["a"]
    [fun _ => "x"] (fun _ => none) none ⟨["a"], [["x"]]⟩ (by rfl)).1

/-- C10: an empty list supplied as `column_order` behaves exactly like an
absent `column_order` (Python truthiness: `column_order if column_order else
input_columns`), so the output header falls back to the input columns instead
of being empty. -/
theorem transform_csv_empty_order_fallback (t : CSVTransformer) (rng : Rng)
    (cols : List String) (rows : List (String → String))
    (cfg : String → Option String) :
    transform_csv t rng cols rows cfg (some []) =
      transform_csv t rng cols rows cfg none := rfl
